import Mathlib

/-
Verification of the round-engine logic of the finger-counting quiz game
(src/script.js): number selection with a recent-numbers window, distractor
option generation, scoring with time and streak bonuses, and the
round/timer state machine.

Randomness is modelled by explicit streams of natural numbers: a JS
expression `Math.floor(Math.random() * k)` is embedded as `rs i % k` for
the next unconsumed stream position `i`, which ranges over exactly the
values 0..k-1 that the source expression can produce.
-/

namespace FingerGame

/-! ## List machinery for the Fisher-Yates shuffles in generateOptions -/

/-- Embeds the JS destructuring swap
`[a[i], a[j]] = [a[j], a[i]]`; out-of-range indices leave the list
unchanged (they do not occur in the source loops). -/
def listSwap (l : List Int) (i j : Nat) : List Int :=
  match l[i]?, l[j]? with
  | some x, some y => (l.set i y).set j x
  | _, _ => l

/-- Embeds the loop body chain of
`for (let i = availableNumbers.length - 1; i > 0; i--)` in
`generateOptions` (both shuffle loops have this shape): at index `i+1`
the JS draws `j = Math.floor(Math.random() * (i + 2))`, embedded as
`rs (i+1) % (i+2)`. -/
def fyGo (rs : Nat → Nat) : List Int → Nat → List Int
  | l, 0 => l
  | l, i + 1 => fyGo rs (listSwap l (i + 1) (rs (i + 1) % (i + 2))) i

/-- Fisher-Yates shuffle as written in `generateOptions`
(src/script.js lines 177-180 and 189-192). -/
def fisherYates (l : List Int) (rs : Nat → Nat) : List Int :=
  fyGo rs l (l.length - 1)

/-- Embeds `options.add(x)` on a JS `Set` kept as an insertion-ordered
duplicate-free list. -/
def addOption (opts : List Int) (a : Int) : List Int :=
  if a ∈ opts then opts else opts ++ [a]

/-- Embeds the loop
`for (let i = 0; i < availableNumbers.length && options.size < 4; i++)
options.add(availableNumbers[i])` of `generateOptions`. -/
def addWrong : List Int → List Int → List Int
  | opts, [] => opts
  | opts, a :: rest => if opts.length < 4 then addWrong (addOption opts a) rest else opts

/-- The list `[1, ..., 10]` built as in
`Array.from({length: 10}, (_, i) => i + 1)`. -/
def allNumbers : List Int :=
  (List.range 10).map (fun i => (i : Int) + 1)

/-- src/script.js `generateOptions` (lines 169-195): start from the set
`{correctNum}`, shuffle `[1,10]` minus `correctNum`, add entries until the
set has 4 members, then shuffle the result. `rs1` and `rs2` are the random
draws of the two shuffle loops. -/
def generateOptions (correctNum : Int) (rs1 rs2 : Nat → Nat) : List Int :=
  let availableNumbers := allNumbers.filter (fun n => n != correctNum)
  let shuffled := fisherYates availableNumbers rs1
  let finalOptions := addWrong [correctNum] shuffled
  fisherYates finalOptions rs2

/-! ## Number selector (generateNewNumber, src/script.js lines 201-222) -/

/-- Embeds `Math.floor(Math.random() * 10) + 1` at stream position `k`. -/
def sampleAt (rs : Nat → Nat) (k : Nat) : Int :=
  ((rs k % 10 : Nat) : Int) + 1

/-- Embeds the do-while loop of `generateNewNumber`. `fuel` counts the
membership-checked iterations still allowed: the source increments
`attempts` each iteration and on `attempts > 20` (the 21st iteration)
discards that iteration's sample, clears the window, draws one more
sample and breaks. -/
def sampleLoop (rs : Nat → Nat) : Nat → Finset Int → Nat → Int × Finset Int
  | k, _, 0 => (sampleAt rs (k + 1), ∅)
  | k, used, fuel + 1 =>
    if sampleAt rs k ∈ used then sampleLoop rs (k + 1) used fuel
    else (sampleAt rs k, used)

/-- src/script.js `generateNewNumber`: clear the window when its size is
at least 8, rejection-sample a number outside the window (with the
20-attempt bailout), add it to the window. Returns the number and the
updated window. -/
def generateNewNumber (used : Finset Int) (rs : Nat → Nat) : Int × Finset Int :=
  let used1 := if 8 ≤ used.card then (∅ : Finset Int) else used
  let r := sampleLoop rs 0 used1 20
  (r.1, insert r.1 r.2)

/-- Iterates the number selector, as successive rounds do; `rss n` is the
random stream consumed by call number `n`. -/
def runSelector (rss : Nat → Nat → Nat) (used : Finset Int) : Nat → Finset Int
  | 0 => used
  | n + 1 => (generateNewNumber (runSelector rss used n) (rss n)).2

/-! ## Round/timer state machine (src/script.js game state and handlers)

The module-level mutable variables of src/script.js become the fields of
`GameState`. DOM writes that carry game information are kept: the
next-button visibility (`nextBtnVisible`) gates when a new round can
start, and the outcome data that `handleAnswer` writes into the feedback
panel (correct / points awarded / correct number) is returned as an
`AnswerResult`. `setInterval` handles are modelled by a fresh-id counter
`nextHandle` together with the set `liveIntervals` of ids of intervals
that are currently running; `clearInterval h` removes `h` from the set. -/

/-- The outcome record of the spec interface
`submitAnswer(selected) -> {isCorrect, pointsAwarded, correctNumber}`,
as communicated by `handleAnswer` through the feedback panel. -/
structure AnswerResult where
  isCorrect : Bool
  pointsAwarded : Int
  correctNumber : Int
deriving DecidableEq

/-- The module-level game state of src/script.js (lines 26-33), plus the
interval bookkeeping and the next-button visibility. -/
structure GameState where
  currentNumber : Int
  score : Int
  streak : Int
  answered : Bool
  timerHandle : Option Nat
  liveIntervals : Finset Nat
  nextHandle : Nat
  timeLeft : Int
  usedNumbers : Finset Int
  options : List Int
  nextBtnVisible : Bool
deriving DecidableEq

/-- src/script.js `const TIMER_DURATION = 15`. -/
def TIMER_DURATION : Int := 15

/-- src/script.js `stopTimer` (lines 392-397):
`if (timerInterval) { clearInterval(timerInterval); timerInterval = null; }`. -/
def stopTimer (s : GameState) : GameState :=
  match s.timerHandle with
  | some h => { s with liveIntervals := s.liveIntervals.erase h, timerHandle := none }
  | none => s

/-- src/script.js `startTimer` (lines 362-387): reset `timeLeft` and
store a fresh `setInterval` handle, without clearing any old interval. -/
def startTimer (s : GameState) : GameState :=
  { s with timeLeft := TIMER_DURATION,
           timerHandle := some s.nextHandle,
           liveIntervals := insert s.nextHandle s.liveIntervals,
           nextHandle := s.nextHandle + 1 }

/-- src/script.js `handleAnswer` (lines 284-353). `Math.floor(timeLeft * 2)`
is `timeLeft * 2`: `timeLeft` is integral, so the floor is the identity.
The early return on `answered` yields the unchanged state and no outcome
record. -/
def handleAnswer (selectedNum : Int) (s : GameState) : GameState × Option AnswerResult :=
  if s.answered then (s, none)
  else
    let s1 := stopTimer { s with answered := true }
    if selectedNum = s1.currentNumber then
      let timeBonus := s1.timeLeft * 2
      let streakBonus := s1.streak * 5
      let totalPoints := 10 + timeBonus + streakBonus
      ({ s1 with score := s1.score + totalPoints,
                 streak := s1.streak + 1,
                 nextBtnVisible := true },
        some ⟨true, totalPoints, s1.currentNumber⟩)
    else
      ({ s1 with streak := 0, nextBtnVisible := true },
        some ⟨false, 0, s1.currentNumber⟩)

/-- src/script.js `handleTimeUp` (lines 402-433): mark the round answered,
reset the streak, reveal the next button. The score is not touched. -/
def handleTimeUp (s : GameState) : GameState :=
  { s with answered := true, streak := 0, nextBtnVisible := true }

/-- The `setInterval` callback body of `startTimer` (lines 368-386):
decrement `timeLeft`; at zero, stop the timer and, if the round is not yet
answered, run `handleTimeUp`. -/
def timerTick (s : GameState) : GameState :=
  let s1 := { s with timeLeft := s.timeLeft - 1 }
  if s1.timeLeft ≤ 0 then
    let s2 := stopTimer s1
    if s2.answered then s2 else handleTimeUp s2
  else s1

/-- src/script.js `startNewRound` (lines 470-486): clear `answered`, pick
a fresh number, hide the next button, build the options, start the timer.
It never calls `stopTimer`. -/
def startNewRound (rsNum rs1 rs2 : Nat → Nat) (s : GameState) : GameState :=
  let g := generateNewNumber s.usedNumbers rsNum
  startTimer { s with answered := false,
                      currentNumber := g.1,
                      usedNumbers := g.2,
                      options := generateOptions g.1 rs1 rs2,
                      nextBtnVisible := false }

/-- The initial values of the module-level variables (lines 26-33),
before `initializeGame` runs the first `startNewRound`. -/
def initState : GameState :=
  { currentNumber := 1, score := 0, streak := 0, answered := false,
    timerHandle := none, liveIntervals := ∅, nextHandle := 0,
    timeLeft := TIMER_DURATION, usedNumbers := ∅, options := [],
    nextBtnVisible := false }

/-- The external triggers that mutate the game state: an option click, an
interval tick, and a next-round click. The `next` event carries the random
streams its round consumes. -/
inductive Event where
  | answer (sel : Int)
  | tick
  | next (rsNum rs1 rs2 : Nat → Nat)

/-- Effect of one event on the state. -/
def step (e : Event) (s : GameState) : GameState :=
  match e with
  | .answer sel => (handleAnswer sel s).1
  | .tick => timerTick s
  | .next a b c => startNewRound a b c s

/-- When an event can fire: a tick needs a running interval, and the
next-round click needs the next button to be shown. Option buttons may be
clicked at any time (the `answered` guard is inside `handleAnswer`). -/
def enabled (e : Event) (s : GameState) : Prop :=
  match e with
  | .answer _ => True
  | .tick => s.liveIntervals ≠ ∅
  | .next _ _ _ => s.nextBtnVisible = true

/-- States reachable from page load: `initializeGame` runs `startNewRound`
once, then events fire when enabled. -/
inductive Reachable : GameState → Prop
  | init (a b c : Nat → Nat) : Reachable (startNewRound a b c initState)
  | step (e : Event) {s : GameState} : Reachable s → enabled e s → Reachable (step e s)

/-- Timer-resource invariant: the stored handle accounts for every live
interval, and whenever the next button is shown the timer is stopped. -/
def TimerInv (s : GameState) : Prop :=
  (∀ h, s.timerHandle = some h → s.liveIntervals = {h}) ∧
  (s.timerHandle = none → s.liveIntervals = ∅) ∧
  (s.nextBtnVisible = true → s.timerHandle = none)

/-! ## Concrete states used to exercise the theorems -/

/-- A mid-round state: number 7 on display, full time left, no answer yet. -/
def demoState : GameState :=
  { currentNumber := 7, score := 100, streak := 0, answered := false,
    timerHandle := some 3, liveIntervals := {3}, nextHandle := 4,
    timeLeft := 15, usedNumbers := {7}, options := [7, 1, 2, 3],
    nextBtnVisible := false }

/-- Like `demoState` but with a running streak of 3. -/
def demoState3 : GameState :=
  { demoState with streak := 3 }

/-- Like `demoState` but with one second on the clock. -/
def demoTimeLow : GameState :=
  { demoState with timeLeft := 1 }

/-- A state whose round is already resolved: answered, timer stopped,
next button shown. -/
def demoAnswered : GameState :=
  { currentNumber := 7, score := 100, streak := 1, answered := true,
    timerHandle := none, liveIntervals := ∅, nextHandle := 4,
    timeLeft := 9, usedNumbers := {7}, options := [7, 1, 2, 3],
    nextBtnVisible := true }

/-- An unreachable state that shows the next button while an interval is
still live. -/
def rogueState : GameState :=
  { currentNumber := 7, score := 0, streak := 0, answered := true,
    timerHandle := some 0, liveIntervals := {0}, nextHandle := 1,
    timeLeft := 5, usedNumbers := ∅, options := [7, 1, 2, 3],
    nextBtnVisible := true }

/-- The constant-zero random stream. -/
def zeroStream : Nat → Nat := fun _ => 0

/-! ## Permutation property of the embedded Fisher-Yates shuffle -/

theorem get_cons_set_perm (t : List Int) (m : Nat) (h : m < t.length) (b : Int) :
    (t.get ⟨m, h⟩ :: t.set m b).Perm (b :: t) := by
  induction t generalizing m with
  | nil => simp at h
  | cons c u ih =>
    cases m with
    | zero => simpa using List.Perm.swap b c u
    | succ k =>
      have hk : k < u.length := by simpa using h
      have h1 : (u.get ⟨k, hk⟩ :: c :: u.set k b).Perm (c :: u.get ⟨k, hk⟩ :: u.set k b) :=
        List.Perm.swap c (u.get ⟨k, hk⟩) (u.set k b)
      have h2 : (c :: u.get ⟨k, hk⟩ :: u.set k b).Perm (c :: b :: u) :=
        List.Perm.cons c (ih k hk)
      have h3 : (c :: b :: u).Perm (b :: c :: u) := List.Perm.swap b c u
      simpa using (h1.trans h2).trans h3

theorem set_get_set_perm (l : List Int) (i j : Nat) (hi : i < l.length) (hj : j < l.length) :
    ((l.set i (l.get ⟨j, hj⟩)).set j (l.get ⟨i, hi⟩)).Perm l := by
  induction l generalizing i j with
  | nil => simp at hi
  | cons a t ih =>
    cases i with
    | zero =>
      cases j with
      | zero => simp
      | succ k =>
        have hk : k < t.length := by simpa using hj
        simpa using get_cons_set_perm t k hk a
    | succ m =>
      have hm : m < t.length := by simpa using hi
      cases j with
      | zero =>
        simpa using get_cons_set_perm t m hm a
      | succ k =>
        have hk : k < t.length := by simpa using hj
        simpa using List.Perm.cons a (ih m k hm hk)

theorem listSwap_perm (l : List Int) (i j : Nat) : (listSwap l i j).Perm l := by
  unfold listSwap
  cases hx : l[i]? with
  | none => simp
  | some x =>
    cases hy : l[j]? with
    | none => simp
    | some y =>
      have hi : i < l.length := by
        by_contra hlt
        simp [List.getElem?_eq_none (by omega : l.length ≤ i)] at hx
      have hj : j < l.length := by
        by_contra hlt
        simp [List.getElem?_eq_none (by omega : l.length ≤ j)] at hy
      have hx2 : l.get ⟨i, hi⟩ = x := by
        have := List.getElem?_eq_getElem hi
        rw [hx] at this
        simpa using (Option.some.inj this).symm
      have hy2 : l.get ⟨j, hj⟩ = y := by
        have := List.getElem?_eq_getElem hj
        rw [hy] at this
        simpa using (Option.some.inj this).symm
      rw [← hx2, ← hy2]
      exact set_get_set_perm l i j hi hj

theorem fyGo_perm (rs : Nat → Nat) (i : Nat) :
    ∀ l : List Int, (fyGo rs l i).Perm l := by
  induction i with
  | zero => intro l; simp [fyGo]
  | succ n ih =>
    intro l
    exact (ih (listSwap l (n + 1) (rs (n + 1) % (n + 2)))).trans
      (listSwap_perm l (n + 1) (rs (n + 1) % (n + 2)))

theorem fisherYates_perm (l : List Int) (rs : Nat → Nat) :
    (fisherYates l rs).Perm l :=
  fyGo_perm rs (l.length - 1) l

/-! ## Properties of the option-set construction -/

theorem addOption_mem (opts : List Int) (a x : Int) :
    x ∈ addOption opts a ↔ x ∈ opts ∨ x = a := by
  unfold addOption
  by_cases h : a ∈ opts
  · simp only [if_pos h]
    constructor
    · exact Or.inl
    · rintro (hx | rfl) <;> assumption
  · simp [if_neg h]

theorem addOption_nodup (opts : List Int) (a : Int) (h : opts.Nodup) :
    (addOption opts a).Nodup := by
  unfold addOption
  by_cases ha : a ∈ opts
  · simpa [if_pos ha]
  · simpa [if_neg ha, List.nodup_append] using ⟨h, ha⟩

theorem addOption_length_of_not_mem (opts : List Int) (a : Int) (h : a ∉ opts) :
    (addOption opts a).length = opts.length + 1 := by
  simp [addOption, if_neg h]

theorem addWrong_spec (avail : List Int) :
    ∀ opts : List Int, opts.Nodup → (∀ a ∈ avail, a ∉ opts) → avail.Nodup →
    opts.length ≤ 4 → 4 ≤ opts.length + avail.length →
    (addWrong opts avail).length = 4 ∧ (addWrong opts avail).Nodup ∧
    (∀ x ∈ opts, x ∈ addWrong opts avail) ∧
    (∀ x ∈ addWrong opts avail, x ∈ opts ∨ x ∈ avail) := by
  induction avail with
  | nil =>
    intro opts hnd _ _ hle hge
    refine ⟨by simpa using Nat.le_antisymm hle (by simpa using hge), by simpa using hnd,
      fun x hx => by simpa [addWrong] using hx, fun x hx => Or.inl (by simpa [addWrong] using hx)⟩
  | cons a rest ih =>
    intro opts hnd hdisj hav hle hge
    have hanotin : a ∉ opts := hdisj a (List.mem_cons_self a rest)
    have hrestnd : rest.Nodup := (List.nodup_cons.mp hav).2
    have hanotrest : a ∉ rest := (List.nodup_cons.mp hav).1
    by_cases hlt : opts.length < 4
    · have hstep : addWrong opts (a :: rest) = addWrong (addOption opts a) rest := by
        simp [addWrong, if_pos hlt]
      have hnd2 : (addOption opts a).Nodup := addOption_nodup opts a hnd
      have hdisj2 : ∀ b ∈ rest, b ∉ addOption opts a := by
        intro b hb hmem
        rcases (addOption_mem opts a b).mp hmem with h | rfl
        · exact hdisj b (List.mem_cons_of_mem a hb) h
        · exact hanotrest hb
      have hlen2 : (addOption opts a).length = opts.length + 1 :=
        addOption_length_of_not_mem opts a hanotin
      have hle2 : (addOption opts a).length ≤ 4 := by omega
      have hge2 : 4 ≤ (addOption opts a).length + rest.length := by
        simp only [List.length_cons] at hge
        omega
      obtain ⟨hL, hN, hSub, hSup⟩ := ih (addOption opts a) hnd2 hdisj2 hrestnd hle2 hge2
      refine ⟨by rwa [hstep], by rwa [hstep], ?_, ?_⟩
      · intro x hx
        rw [hstep]
        exact hSub x ((addOption_mem opts a x).mpr (Or.inl hx))
      · intro x hx
        rw [hstep] at hx
        rcases hSup x hx with h | h
        · rcases (addOption_mem opts a x).mp h with h2 | rfl
          · exact Or.inl h2
          · exact Or.inr (List.mem_cons_self x rest)
        · exact Or.inr (List.mem_cons_of_mem a h)
    · have hstep : addWrong opts (a :: rest) = opts := by
        simp [addWrong, if_neg hlt]
      refine ⟨by rw [hstep]; omega, by rwa [hstep], fun x hx => by rwa [hstep],
        fun x hx => Or.inl (by rwa [hstep] at hx)⟩

theorem allNumbers_eq : allNumbers = [1, 2, 3, 4, 5, 6, 7, 8, 9, 10] := by decide

theorem mem_allNumbers (x : Int) : x ∈ allNumbers ↔ 1 ≤ x ∧ x ≤ 10 := by
  rw [allNumbers_eq]
  simp only [List.mem_cons, List.mem_singleton, List.not_mem_nil, or_false]
  omega

theorem allNumbers_nodup : allNumbers.Nodup := by
  rw [allNumbers_eq]; decide

theorem allNumbers_length : allNumbers.length = 10 := by
  rw [allNumbers_eq]; rfl

theorem length_filter_bne (c : Int) (l : List Int) (h : l.Nodup) :
    l.length ≤ (l.filter (fun n => n != c)).length + 1 := by
  induction l with
  | nil => simp
  | cons a t ih =>
    have hat : a ∉ t := (List.nodup_cons.mp h).1
    have htnd : t.Nodup := (List.nodup_cons.mp h).2
    by_cases hac : a = c
    · subst hac
      have hfix : t.filter (fun n => n != a) = t :=
        List.filter_eq_self.mpr (fun x hx => by
          simp only [bne_iff_ne, ne_eq, decide_eq_true_eq]
          exact fun hxa => hat (hxa ▸ hx))
      simp [List.filter_cons, hfix]
    · have : (a != c) = true := by simpa using hac
      simp only [List.filter_cons, this, if_pos, List.length_cons]
      have := ih htnd
      omega

theorem generateOptions_spec (c : Int) (rs1 rs2 : Nat → Nat) :
    (generateOptions c rs1 rs2).length = 4 ∧ (generateOptions c rs1 rs2).Nodup ∧
    c ∈ generateOptions c rs1 rs2 ∧
    ∀ x ∈ generateOptions c rs1 rs2, x = c ∨ (1 ≤ x ∧ x ≤ 10) := by
  have havnd : (allNumbers.filter (fun n => n != c)).Nodup := allNumbers_nodup.filter _
  have havmem : ∀ x ∈ allNumbers.filter (fun n => n != c), (1 ≤ x ∧ x ≤ 10) ∧ x ≠ c := by
    intro x hx
    rcases List.mem_filter.mp hx with ⟨hmem, hne⟩
    exact ⟨(mem_allNumbers x).mp hmem, by simpa using hne⟩
  have havlen : 9 ≤ (allNumbers.filter (fun n => n != c)).length := by
    have := length_filter_bne c allNumbers allNumbers_nodup
    rw [allNumbers_length] at this
    omega
  have hperm1 := fisherYates_perm (allNumbers.filter (fun n => n != c)) rs1
  set shuffled := fisherYates (allNumbers.filter (fun n => n != c)) rs1 with hsh
  have hshnd : shuffled.Nodup := hperm1.nodup_iff.mpr havnd
  have hshmem : ∀ x ∈ shuffled, (1 ≤ x ∧ x ≤ 10) ∧ x ≠ c :=
    fun x hx => havmem x (hperm1.mem_iff.mp hx)
  have hshlen : 9 ≤ shuffled.length := by rw [hperm1.length_eq]; exact havlen
  have hdisj : ∀ a ∈ shuffled, a ∉ [c] := by
    intro a ha
    simpa using (hshmem a ha).2
  obtain ⟨hL, hN, hSub, hSup⟩ := addWrong_spec shuffled [c] (by simp) hdisj hshnd
    (by simp) (by simp only [List.length_singleton]; omega)
  set finalOptions := addWrong [c] shuffled with hfo
  have hperm2 := fisherYates_perm finalOptions rs2
  have hgen : generateOptions c rs1 rs2 = fisherYates finalOptions rs2 := rfl
  rw [hgen]
  refine ⟨by rw [hperm2.length_eq]; exact hL, hperm2.nodup_iff.mpr hN, ?_, ?_⟩
  · exact hperm2.mem_iff.mpr (hSub c (by simp))
  · intro x hx
    rcases hSup x (hperm2.mem_iff.mp hx) with h | h
    · exact Or.inl (by simpa using h)
    · exact Or.inr (hshmem x h).1

/-! ## Properties of the number selector -/

theorem sampleAt_range (rs : Nat → Nat) (k : Nat) :
    1 ≤ sampleAt rs k ∧ sampleAt rs k ≤ 10 := by
  unfold sampleAt
  have h : rs k % 10 < 10 := Nat.mod_lt _ (by omega)
  omega

theorem sampleLoop_spec (rs : Nat → Nat) (fuel : Nat) :
    ∀ (k : Nat) (used : Finset Int),
    (1 ≤ (sampleLoop rs k used fuel).1 ∧ (sampleLoop rs k used fuel).1 ≤ 10) ∧
    (((sampleLoop rs k used fuel).1 ∉ used ∧ (sampleLoop rs k used fuel).2 = used) ∨
      (sampleLoop rs k used fuel).2 = ∅) := by
  induction fuel with
  | zero =>
    intro k used
    exact ⟨sampleAt_range rs (k + 1), Or.inr rfl⟩
  | succ n ih =>
    intro k used
    by_cases hmem : sampleAt rs k ∈ used
    · simpa [sampleLoop, if_pos hmem] using ih (k + 1) used
    · have hstep : sampleLoop rs k used (n + 1) = (sampleAt rs k, used) := by
        simp [sampleLoop, if_neg hmem]
      rw [hstep]
      exact ⟨sampleAt_range rs k, Or.inl ⟨hmem, rfl⟩⟩

theorem generateNewNumber_card (used : Finset Int) (rs : Nat → Nat) :
    (generateNewNumber used rs).2.card ≤ 8 := by
  unfold generateNewNumber
  by_cases h8 : 8 ≤ used.card
  · simp only [if_pos h8]
    rcases (sampleLoop_spec rs 20 0 ∅).2 with ⟨_, heq⟩ | heq <;>
      · rw [heq]
        simp
  · simp only [if_neg h8]
    rcases (sampleLoop_spec rs 20 0 used).2 with ⟨_, heq⟩ | heq
    · rw [heq]
      have := Finset.card_insert_le (sampleLoop rs 0 used 20).1 used
      omega
    · rw [heq]
      simp

theorem runSelector_card (rss : Nat → Nat → Nat) (used : Finset Int)
    (h : used.card ≤ 8) : ∀ n, (runSelector rss used n).card ≤ 8 := by
  intro n
  cases n with
  | zero => exact h
  | succ m => exact generateNewNumber_card (runSelector rss used m) (rss m)

/-! ## Timer-resource invariant lemmas -/

@[simp] theorem stopTimer_timerHandle (s : GameState) : (stopTimer s).timerHandle = none := by
  cases h : s.timerHandle <;> simp [stopTimer, h]

@[simp] theorem stopTimer_score (s : GameState) : (stopTimer s).score = s.score := by
  cases h : s.timerHandle <;> simp [stopTimer, h]

@[simp] theorem stopTimer_streak (s : GameState) : (stopTimer s).streak = s.streak := by
  cases h : s.timerHandle <;> simp [stopTimer, h]

@[simp] theorem stopTimer_answered (s : GameState) : (stopTimer s).answered = s.answered := by
  cases h : s.timerHandle <;> simp [stopTimer, h]

@[simp] theorem stopTimer_timeLeft (s : GameState) : (stopTimer s).timeLeft = s.timeLeft := by
  cases h : s.timerHandle <;> simp [stopTimer, h]

@[simp] theorem stopTimer_currentNumber (s : GameState) :
    (stopTimer s).currentNumber = s.currentNumber := by
  cases h : s.timerHandle <;> simp [stopTimer, h]

@[simp] theorem stopTimer_nextBtnVisible (s : GameState) :
    (stopTimer s).nextBtnVisible = s.nextBtnVisible := by
  cases h : s.timerHandle <;> simp [stopTimer, h]

theorem stopTimer_live (s : GameState) (hInv : TimerInv s) :
    (stopTimer s).liveIntervals = ∅ := by
  cases h : s.timerHandle with
  | none => simpa [stopTimer, h] using hInv.2.1 h
  | some k =>
    have hk := hInv.1 k h
    simp [stopTimer, h, hk]

theorem timerInv_startNewRound (a b c : Nat → Nat) (s : GameState)
    (hlive : s.liveIntervals = ∅) : TimerInv (startNewRound a b c s) := by
  refine ⟨?_, ?_, ?_⟩
  · intro h hh
    have : h = s.nextHandle := by
      simpa [startNewRound, startTimer] using hh.symm
    subst this
    simp [startNewRound, startTimer, hlive]
  · intro hh
    simp [startNewRound, startTimer] at hh
  · intro hh
    simp [startNewRound, startTimer] at hh

theorem timerInv_step (e : Event) (s : GameState) (hInv : TimerInv s)
    (hen : enabled e s) : TimerInv (step e s) := by
  cases e with
  | answer sel =>
    by_cases hans : s.answered
    · simpa [step, handleAnswer, hans] using hInv
    · have hInv1 : TimerInv { s with answered := true } :=
        ⟨hInv.1, hInv.2.1, hInv.2.2⟩
      have hlive : (stopTimer { s with answered := true }).liveIntervals = ∅ :=
        stopTimer_live _ hInv1
      by_cases hsel : sel = s.currentNumber
      · refine ⟨?_, ?_, ?_⟩ <;>
          simp [step, handleAnswer, hans, hsel, hlive]
      · refine ⟨?_, ?_, ?_⟩ <;>
          simp [step, handleAnswer, hans, hsel, hlive]
  | tick =>
    have hInv1 : TimerInv { s with timeLeft := s.timeLeft - 1 } :=
      ⟨hInv.1, hInv.2.1, hInv.2.2⟩
    have hlive : (stopTimer { s with timeLeft := s.timeLeft - 1 }).liveIntervals = ∅ :=
      stopTimer_live _ hInv1
    by_cases hz : s.timeLeft - 1 ≤ 0
    · cases hans : s.answered with
      | true =>
        rw [hans] at hlive
        refine ⟨?_, ?_, ?_⟩ <;> simp [step, timerTick, hz, hans, hlive]
      | false =>
        rw [hans] at hlive
        refine ⟨?_, ?_, ?_⟩ <;> simp [step, timerTick, handleTimeUp, hz, hans, hlive]
    · have hstep : step Event.tick s = { s with timeLeft := s.timeLeft - 1 } := by
        simp [step, timerTick, hz]
      rw [hstep]
      exact hInv1
  | next a b c =>
    have hnone : s.timerHandle = none := hInv.2.2 hen
    have hlive : s.liveIntervals = ∅ := hInv.2.1 hnone
    exact timerInv_startNewRound a b c s hlive

theorem reachable_timerInv (s : GameState) (h : Reachable s) : TimerInv s := by
  induction h with
  | init a b c => exact timerInv_startNewRound a b c initState rfl
  | step e hr hen ih => exact timerInv_step e _ ih hen

/-! ## Behaviour of handleAnswer on unresolved rounds -/

theorem handleAnswer_answered (sel : Int) (s : GameState) (hans : s.answered = true) :
    handleAnswer sel s = (s, none) := by
  simp [handleAnswer, hans]

theorem handleAnswer_correct_fields (sel : Int) (s : GameState)
    (hans : s.answered = false) (hsel : sel = s.currentNumber) :
    (handleAnswer sel s).1.score = s.score + (10 + s.timeLeft * 2 + s.streak * 5) ∧
    (handleAnswer sel s).1.streak = s.streak + 1 ∧
    (handleAnswer sel s).1.answered = true ∧
    (handleAnswer sel s).2 = some ⟨true, 10 + s.timeLeft * 2 + s.streak * 5, s.currentNumber⟩ := by
  refine ⟨?_, ?_, ?_, ?_⟩ <;> simp [handleAnswer, hans, hsel]

theorem handleAnswer_incorrect_fields (sel : Int) (s : GameState)
    (hans : s.answered = false) (hsel : sel ≠ s.currentNumber) :
    (handleAnswer sel s).1.streak = 0 ∧
    (handleAnswer sel s).1.score = s.score ∧
    (handleAnswer sel s).1.answered = true ∧
    (handleAnswer sel s).2 = some ⟨false, 0, s.currentNumber⟩ := by
  refine ⟨?_, ?_, ?_, ?_⟩ <;> simp [handleAnswer, hans, hsel]

theorem timerTick_answered_fields (s : GameState) (hans : s.answered = true) :
    (timerTick s).score = s.score ∧ (timerTick s).streak = s.streak ∧
    (timerTick s).answered = true := by
  by_cases hz : s.timeLeft - 1 ≤ 0 <;>
    refine ⟨?_, ?_, ?_⟩ <;> simp [timerTick, hz, hans]

theorem timerTick_timeout_fields (s : GameState) (hans : s.answered = false)
    (hz : s.timeLeft ≤ 1) :
    (timerTick s).streak = 0 ∧ (timerTick s).score = s.score ∧
    (timerTick s).answered = true := by
  have hz2 : s.timeLeft - 1 ≤ 0 := by omega
  refine ⟨?_, ?_, ?_⟩ <;> simp [timerTick, hz2, hans, handleTimeUp]

/-! ## The claims -/

/-- C1: for every correct answer submitted while the round is unresolved,
with time remaining `t` (0 ≤ t ≤ 15) and pre-increment streak `s`, the
points awarded equal `10 + floor(t*2) + s*5` (with integral `t` the floor
is the identity), the score increases by exactly that amount, and the
streak becomes `s + 1`; in particular `t = 15, streak = 0` yields exactly
40 points and `t = 15, streak = 3` yields exactly 55 points. -/
theorem scoring_correct_answer (s : GameState) (t : Int)
    (hans : s.answered = false) (ht : s.timeLeft = t) (h0 : 0 ≤ t) (h15 : t ≤ 15) :
    (handleAnswer s.currentNumber s).2 =
      some ⟨true, 10 + t * 2 + s.streak * 5, s.currentNumber⟩ ∧
    (handleAnswer s.currentNumber s).1.score = s.score + (10 + t * 2 + s.streak * 5) ∧
    (handleAnswer s.currentNumber s).1.streak = s.streak + 1 ∧
    (t = 15 → s.streak = 0 → 10 + t * 2 + s.streak * 5 = 40) ∧
    (t = 15 → s.streak = 3 → 10 + t * 2 + s.streak * 5 = 55) := by
  obtain ⟨hscore, hstreak, _, hres⟩ :=
    handleAnswer_correct_fields s.currentNumber s hans rfl
  subst ht
  refine ⟨hres, hscore, hstreak, ?_, ?_⟩ <;> · intro he hs; rw [he, hs]; rfl

theorem scoring_correct_answer_witness :
    ((handleAnswer demoState.currentNumber demoState).2 =
        some ⟨true, 10 + 15 * 2 + demoState.streak * 5, demoState.currentNumber⟩ ∧
      (handleAnswer demoState.currentNumber demoState).1.score =
        demoState.score + (10 + 15 * 2 + demoState.streak * 5) ∧
      (handleAnswer demoState.currentNumber demoState).1.streak = demoState.streak + 1 ∧
      ((15 : Int) = 15 → demoState.streak = 0 → 10 + 15 * 2 + demoState.streak * 5 = 40) ∧
      ((15 : Int) = 15 → demoState.streak = 3 → 10 + 15 * 2 + demoState.streak * 5 = 55)) ∧
    ((handleAnswer demoState3.currentNumber demoState3).2 =
        some ⟨true, 10 + 15 * 2 + demoState3.streak * 5, demoState3.currentNumber⟩ ∧
      (handleAnswer demoState3.currentNumber demoState3).1.score =
        demoState3.score + (10 + 15 * 2 + demoState3.streak * 5) ∧
      (handleAnswer demoState3.currentNumber demoState3).1.streak = demoState3.streak + 1 ∧
      ((15 : Int) = 15 → demoState3.streak = 0 → 10 + 15 * 2 + demoState3.streak * 5 = 40) ∧
      ((15 : Int) = 15 → demoState3.streak = 3 → 10 + 15 * 2 + demoState3.streak * 5 = 55)) :=
  ⟨scoring_correct_answer demoState 15 rfl rfl (by decide) (by decide),
    scoring_correct_answer demoState3 15 rfl rfl (by decide) (by decide)⟩

/-- C2: for every input `correct` in `[1,10]` and all random draws, the
option generator returns a sequence of exactly 4 distinct integers that
contains `correct`, with every member in `[1,10]`. -/
theorem options_of_valid_correct (c : Int) (rs1 rs2 : Nat → Nat)
    (h1 : 1 ≤ c) (h10 : c ≤ 10) :
    (generateOptions c rs1 rs2).length = 4 ∧ (generateOptions c rs1 rs2).Nodup ∧
    c ∈ generateOptions c rs1 rs2 ∧
    ∀ x ∈ generateOptions c rs1 rs2, 1 ≤ x ∧ x ≤ 10 := by
  obtain ⟨hL, hN, hc, hall⟩ := generateOptions_spec c rs1 rs2
  refine ⟨hL, hN, hc, fun x hx => ?_⟩
  rcases hall x hx with rfl | hb
  · exact ⟨h1, h10⟩
  · exact hb

theorem options_of_valid_correct_witness :
    (generateOptions 7 zeroStream zeroStream).length = 4 ∧
    (generateOptions 7 zeroStream zeroStream).Nodup ∧
    (7 : Int) ∈ generateOptions 7 zeroStream zeroStream ∧
    ∀ x ∈ generateOptions 7 zeroStream zeroStream, 1 ≤ x ∧ x ≤ 10 :=
  options_of_valid_correct 7 zeroStream zeroStream (by decide) (by decide)

/-- C10: the option generator is total over all integer inputs: for every
integer `correct`, even outside `[1,10]`, `generateOptions` still returns
exactly 4 distinct values containing `correct`, the other three drawn from
`[1,10]`; so the all-members-in-range guarantee needs `correct ∈ [1,10]`. -/
theorem options_total_all_ints (c : Int) (rs1 rs2 : Nat → Nat) :
    (generateOptions c rs1 rs2).length = 4 ∧ (generateOptions c rs1 rs2).Nodup ∧
    c ∈ generateOptions c rs1 rs2 ∧
    ∀ x ∈ generateOptions c rs1 rs2, x ≠ c → 1 ≤ x ∧ x ≤ 10 := by
  obtain ⟨hL, hN, hc, hall⟩ := generateOptions_spec c rs1 rs2
  refine ⟨hL, hN, hc, fun x hx hne => ?_⟩
  rcases hall x hx with rfl | hb
  · exact absurd rfl hne
  · exact hb

theorem options_total_all_ints_witness :
    ((generateOptions 42 zeroStream zeroStream).length = 4 ∧
      (generateOptions 42 zeroStream zeroStream).Nodup ∧
      (42 : Int) ∈ generateOptions 42 zeroStream zeroStream ∧
      ∀ x ∈ generateOptions 42 zeroStream zeroStream, x ≠ 42 → 1 ≤ x ∧ x ≤ 10) ∧
    ¬ (∀ x ∈ generateOptions 42 zeroStream zeroStream, 1 ≤ x ∧ x ≤ 10) := by
  refine ⟨options_total_all_ints 42 zeroStream zeroStream, fun hall => ?_⟩
  have h42 := (options_total_all_ints 42 zeroStream zeroStream).2.2.1
  have := hall 42 h42
  omega

/-- C3: round resolution happens at most once per round: once the round
is resolved (`answered = true`), a further answer submission is a complete
no-op with no outcome record, and a timer tick changes neither score nor
streak nor the answered flag; the flag is set to true by the resolving
submission itself, so it becomes true exactly once per round. -/
theorem resolution_at_most_once (s : GameState) (sel : Int) :
    (s.answered = true →
      handleAnswer sel s = (s, none) ∧
      (timerTick s).score = s.score ∧ (timerTick s).streak = s.streak ∧
      (timerTick s).answered = true) ∧
    (s.answered = false → (handleAnswer sel s).1.answered = true) := by
  constructor
  · intro hans
    exact ⟨handleAnswer_answered sel s hans, timerTick_answered_fields s hans⟩
  · intro hans
    by_cases hsel : sel = s.currentNumber
    · exact (handleAnswer_correct_fields sel s hans hsel).2.2.1
    · exact (handleAnswer_incorrect_fields sel s hans hsel).2.2.1

theorem resolution_at_most_once_witness :
    (handleAnswer 5 demoAnswered = (demoAnswered, none) ∧
      (timerTick demoAnswered).score = demoAnswered.score ∧
      (timerTick demoAnswered).streak = demoAnswered.streak ∧
      (timerTick demoAnswered).answered = true) ∧
    (handleAnswer 5 demoState).1.answered = true :=
  ⟨(resolution_at_most_once demoAnswered 5).1 rfl,
    (resolution_at_most_once demoState 5).2 rfl⟩

/-- C4: every resolution of an unresolved round by an incorrect answer,
by `handleTimeUp`, or by the tick that lets the countdown reach zero, sets
the streak to 0 and leaves the score unchanged (0 points awarded). -/
theorem incorrect_or_timeout_outcome (s : GameState) (sel : Int)
    (hans : s.answered = false) :
    (sel ≠ s.currentNumber →
      (handleAnswer sel s).1.streak = 0 ∧
      (handleAnswer sel s).1.score = s.score ∧
      (handleAnswer sel s).2 = some ⟨false, 0, s.currentNumber⟩) ∧
    ((handleTimeUp s).streak = 0 ∧ (handleTimeUp s).score = s.score) ∧
    (s.timeLeft ≤ 1 → (timerTick s).streak = 0 ∧ (timerTick s).score = s.score) := by
  refine ⟨fun hsel => ?_, ⟨rfl, rfl⟩, fun hz => ?_⟩
  · obtain ⟨h1, h2, _, h4⟩ := handleAnswer_incorrect_fields sel s hans hsel
    exact ⟨h1, h2, h4⟩
  · obtain ⟨h1, h2, _⟩ := timerTick_timeout_fields s hans hz
    exact ⟨h1, h2⟩

theorem incorrect_or_timeout_outcome_witness :
    ((handleAnswer 3 demoState3).1.streak = 0 ∧
      (handleAnswer 3 demoState3).1.score = demoState3.score ∧
      (handleAnswer 3 demoState3).2 = some ⟨false, 0, demoState3.currentNumber⟩) ∧
    ((handleTimeUp demoState3).streak = 0 ∧ (handleTimeUp demoState3).score = demoState3.score) ∧
    ((timerTick demoTimeLow).streak = 0 ∧ (timerTick demoTimeLow).score = demoTimeLow.score) :=
  ⟨(incorrect_or_timeout_outcome demoState3 3 rfl).1 (by decide),
    (incorrect_or_timeout_outcome demoState3 3 rfl).2.1,
    (incorrect_or_timeout_outcome demoTimeLow 3 rfl).2.2 (by decide)⟩

/-- C5: every call to the number selector returns an integer in `[1,10]`
that is outside the entry window, unless the window was cleared during the
call (entry size ≥ 8, or the 20-rejection bailout, after which the window
holds only the returned number); the returned number is added to the
window, and across any sequence of calls the window size never exceeds 8. -/
theorem number_selector_spec (used : Finset Int) (rs : Nat → Nat)
    (rss : Nat → Nat → Nat) (hcard : used.card ≤ 8) :
    (1 ≤ (generateNewNumber used rs).1 ∧ (generateNewNumber used rs).1 ≤ 10) ∧
    (generateNewNumber used rs).1 ∈ (generateNewNumber used rs).2 ∧
    ((generateNewNumber used rs).1 ∉ used ∨ 8 ≤ used.card ∨
      (generateNewNumber used rs).2 = {(generateNewNumber used rs).1}) ∧
    (generateNewNumber used rs).2.card ≤ 8 ∧
    (∀ n, (runSelector rss used n).card ≤ 8) := by
  have hrange := (sampleLoop_spec rs 20 0 (if 8 ≤ used.card then (∅ : Finset Int) else used)).1
  have hcase := (sampleLoop_spec rs 20 0 (if 8 ≤ used.card then (∅ : Finset Int) else used)).2
  have hfst : (generateNewNumber used rs).1 =
      (sampleLoop rs 0 (if 8 ≤ used.card then (∅ : Finset Int) else used) 20).1 := rfl
  have hsnd : (generateNewNumber used rs).2 =
      insert (generateNewNumber used rs).1
        (sampleLoop rs 0 (if 8 ≤ used.card then (∅ : Finset Int) else used) 20).2 := rfl
  refine ⟨by rw [hfst]; exact hrange, by rw [hsnd]; exact Finset.mem_insert_self _ _, ?_,
    generateNewNumber_card used rs, runSelector_card rss used hcard⟩
  by_cases h8 : 8 ≤ used.card
  · exact Or.inr (Or.inl h8)
  · rcases hcase with ⟨hnot, _⟩ | hempty
    · rw [if_neg h8] at hnot
      refine Or.inl ?_
      rw [hfst, if_neg h8]
      exact hnot
    · refine Or.inr (Or.inr ?_)
      rw [hsnd, hempty, hfst]
      simp

theorem number_selector_spec_witness :
    (1 ≤ (generateNewNumber {7} zeroStream).1 ∧ (generateNewNumber {7} zeroStream).1 ≤ 10) ∧
    (generateNewNumber {7} zeroStream).1 ∈ (generateNewNumber {7} zeroStream).2 ∧
    ((generateNewNumber {7} zeroStream).1 ∉ ({7} : Finset Int) ∨
      8 ≤ ({7} : Finset Int).card ∨
      (generateNewNumber {7} zeroStream).2 = {(generateNewNumber {7} zeroStream).1}) ∧
    (generateNewNumber {7} zeroStream).2.card ≤ 8 ∧
    (∀ n, (runSelector (fun _ => zeroStream) {7} n).card ≤ 8) :=
  number_selector_spec {7} zeroStream (fun _ => zeroStream) (by decide)

/-- C6 counterexample: the out-of-range input 11, submitted on an
unresolved round with streak 3, is not rejected: `handleAnswer` resolves
the round, resets the streak to 0, changes the state, and reports an
ordinary incorrect outcome rather than any invalid-input condition. -/
theorem out_of_range_rejected_counterexample :
    (handleAnswer 11 demoState3).1.answered = true ∧
    (handleAnswer 11 demoState3).1.streak = 0 ∧
    (handleAnswer 11 demoState3).1 ≠ demoState3 ∧
    (handleAnswer 11 demoState3).2 = some ⟨false, 0, 7⟩ := by
  decide

/-- C6 amended: an external integer input outside `[1,10]` is not
rejected and no invalid-input condition is signalled; on an unresolved
round (whose displayed number is in `[1,10]`) it is processed as an
ordinary incorrect answer: the round resolves, the streak resets to 0
and the score is unchanged. -/
theorem out_of_range_treated_as_incorrect (s : GameState) (sel : Int)
    (hans : s.answered = false) (hc1 : 1 ≤ s.currentNumber)
    (hc10 : s.currentNumber ≤ 10) (hsel : sel < 1 ∨ 10 < sel) :
    (handleAnswer sel s).1.answered = true ∧
    (handleAnswer sel s).1.streak = 0 ∧
    (handleAnswer sel s).1.score = s.score ∧
    (handleAnswer sel s).2 = some ⟨false, 0, s.currentNumber⟩ := by
  have hne : sel ≠ s.currentNumber := by rcases hsel with h | h <;> omega
  obtain ⟨h1, h2, h3, h4⟩ := handleAnswer_incorrect_fields sel s hans hne
  exact ⟨h3, h1, h2, h4⟩

theorem out_of_range_treated_as_incorrect_witness :
    (handleAnswer 11 demoState).1.answered = true ∧
    (handleAnswer 11 demoState).1.streak = 0 ∧
    (handleAnswer 11 demoState).1.score = demoState.score ∧
    (handleAnswer 11 demoState).2 = some ⟨false, 0, demoState.currentNumber⟩ :=
  out_of_range_treated_as_incorrect demoState 11 rfl (by decide) (by decide)
    (Or.inr (by decide))

/-- C7: on an unresolved round, answer submission yields the record
`{isCorrect, pointsAwarded, correctNumber}` describing the outcome (the
data `handleAnswer` reports through the feedback panel); when the round
is already answered the call is a no-op with no record. -/
theorem submitAnswer_interface (s : GameState) (sel : Int) :
    (s.answered = true → handleAnswer sel s = (s, none)) ∧
    (s.answered = false → (handleAnswer sel s).2 =
      some ⟨decide (sel = s.currentNumber),
        if sel = s.currentNumber then 10 + s.timeLeft * 2 + s.streak * 5 else 0,
        s.currentNumber⟩) := by
  refine ⟨handleAnswer_answered sel s, fun hans => ?_⟩
  by_cases hsel : sel = s.currentNumber
  · rw [(handleAnswer_correct_fields sel s hans hsel).2.2.2]
    simp [hsel]
  · rw [(handleAnswer_incorrect_fields sel s hans hsel).2.2.2]
    simp [hsel]

theorem submitAnswer_interface_witness :
    handleAnswer 5 demoAnswered = (demoAnswered, none) ∧
    (handleAnswer 7 demoState).2 =
      some ⟨decide ((7 : Int) = demoState.currentNumber),
        if (7 : Int) = demoState.currentNumber then
          10 + demoState.timeLeft * 2 + demoState.streak * 5
        else 0,
        demoState.currentNumber⟩ :=
  ⟨(submitAnswer_interface demoAnswered 5).1 rfl,
    (submitAnswer_interface demoState 7).2 rfl⟩

/-- C8 counterexample: `startNewRound` does not release the interval
handle: invoked on a state that still has one live interval, it leaves
two intervals running concurrently, so the claimed release-on-new-round
and never-a-duplicate-timer guarantees fail as stated. -/
theorem new_round_duplicate_timer_counterexample :
    rogueState.liveIntervals.card = 1 ∧
    (startNewRound zeroStream zeroStream zeroStream rogueState).liveIntervals.card = 2 ∧
    (startNewRound zeroStream zeroStream zeroStream rogueState).timerHandle = some 1 := by
  refine ⟨rfl, ?_, rfl⟩
  decide

/-- C8 amended: resolution always releases the interval handle (answer
submission and the zero-reaching tick both clear it), and a new round is
only reachable after the next button is shown, which implies the timer is
already stopped; hence at no reachable state are two countdown intervals
live. `startNewRound` itself, however, does not release the handle, so
the claim's in-particular case fails (see the counterexample). -/
theorem reachable_single_timer (s : GameState) (hr : Reachable s) :
    s.liveIntervals.card ≤ 1 ∧
    (∀ sel, s.answered = false →
      (handleAnswer sel s).1.timerHandle = none ∧
      (handleAnswer sel s).1.liveIntervals = ∅) ∧
    (s.timeLeft ≤ 1 →
      (timerTick s).timerHandle = none ∧ (timerTick s).liveIntervals = ∅) := by
  have hInv := reachable_timerInv s hr
  refine ⟨?_, ?_, ?_⟩
  · cases hh : s.timerHandle with
    | none => rw [hInv.2.1 hh]; simp
    | some k => rw [hInv.1 k hh]; simp
  · intro sel hans
    have hInv1 : TimerInv { s with answered := true } := ⟨hInv.1, hInv.2.1, hInv.2.2⟩
    have hlive := stopTimer_live _ hInv1
    by_cases hsel : sel = s.currentNumber <;>
      exact ⟨by simp [handleAnswer, hans, hsel], by simp [handleAnswer, hans, hsel, hlive]⟩
  · intro hz
    have hz2 : s.timeLeft - 1 ≤ 0 := by omega
    have hInv1 : TimerInv { s with timeLeft := s.timeLeft - 1 } := ⟨hInv.1, hInv.2.1, hInv.2.2⟩
    have hlive := stopTimer_live _ hInv1
    cases hans : s.answered with
    | true =>
      rw [hans] at hlive
      exact ⟨by simp [timerTick, hz2, hans], by simp [timerTick, hz2, hans, hlive]⟩
    | false =>
      rw [hans] at hlive
      exact ⟨by simp [timerTick, handleTimeUp, hz2, hans],
        by simp [timerTick, handleTimeUp, hz2, hans, hlive]⟩

theorem reachable_single_timer_witness :
    (startNewRound zeroStream zeroStream zeroStream initState).liveIntervals.card ≤ 1 ∧
    (∀ sel, (startNewRound zeroStream zeroStream zeroStream initState).answered = false →
      (handleAnswer sel (startNewRound zeroStream zeroStream zeroStream initState)).1.timerHandle
          = none ∧
      (handleAnswer sel (startNewRound zeroStream zeroStream zeroStream initState)).1.liveIntervals
          = ∅) ∧
    ((startNewRound zeroStream zeroStream zeroStream initState).timeLeft ≤ 1 →
      (timerTick (startNewRound zeroStream zeroStream zeroStream initState)).timerHandle = none ∧
      (timerTick (startNewRound zeroStream zeroStream zeroStream initState)).liveIntervals = ∅) :=
  reachable_single_timer _ (Reachable.init zeroStream zeroStream zeroStream)

/-- C9: timer cancellation is idempotent: `stopTimer` on a state whose
handle is already null is a no-op, and `stopTimer` composed with itself
equals a single `stopTimer` on the whole state. -/
theorem stopTimer_idempotent (s : GameState) :
    (s.timerHandle = none → stopTimer s = s) ∧
    stopTimer (stopTimer s) = stopTimer s := by
  constructor
  · intro h
    simp [stopTimer, h]
  · cases hs : s.timerHandle with
    | none => simp [stopTimer, hs]
    | some k => simp [stopTimer, hs]

theorem stopTimer_idempotent_witness :
    (stopTimer demoAnswered = demoAnswered) ∧
    stopTimer (stopTimer demoAnswered) = stopTimer demoAnswered :=
  ⟨(stopTimer_idempotent demoAnswered).1 rfl, (stopTimer_idempotent demoAnswered).2⟩

end FingerGame
